import Mathlib

/-!
Shallow embedding of the voicing pipeline of the midival_renaissance repository.

Sources embedded here:
- `src/crates/software/src/midi_state/activated_notes.rs` (`ActivatedNotes`),
  plus the `first`/`last`/`lowest`/`highest` accessors of `src/src/activated_notes.rs`
  that the firmware `keyboard` task calls;
- `src/crates/software/src/configuration/keyboard.rs` (`NotePriority::provide_note`,
  `Keyboard::voltage`);
- `src/crates/software/src/portamento.rs` (`Portamento::glide`, `Portamento::progress`);
- `src/crates/firmware/src/main.rs` (`voltage_to_dac_value`, the `keyboard` and
  `trigger` task bodies);
- `src/crates/firmware/src/chord_cleanup.rs` (the `handle_deferred_midi_msg`
  state machine and the `chord_cleanup_config` button task);
- `src/crates/software/src/configuration/chord_cleanup.rs` (`ChordCleanup`).

Modelling conventions: notes are `Nat` (MIDI pitch numbers, `F3 = 53`, `C4 = 60`,
`D5 = 74`); instants and durations are `Nat` microseconds, matching the tick unit of
the firmware's time base; the real-valued `f32`/`f64` voltage arithmetic of the source
is embedded in `ℚ` (the computations involved are exact in the reals); an
`ActivatedNotes` value is the `List Nat` of its `data` vector in insertion order.
-/

/-- The capacity of the default `ActivatedNotes` (`GM2_SIMUL_NOTE_NUM` in the source). -/
def GM2_SIMUL_NOTE_NUM : Nat := 32

/-- Embeds `ActivatedNotes::add`: push the note at the end only when the vector is not
at capacity and the note is not already present; otherwise ignore the input. -/
def ActivatedNotes.add (cap : Nat) (s : List Nat) (note : Nat) : List Nat :=
  if s.length ≠ cap ∧ note ∉ s then s ++ [note] else s

/-- Embeds `ActivatedNotes::remove`: `retain` every entry different from the note,
keeping the relative order of the survivors. -/
def ActivatedNotes.remove (s : List Nat) (note : Nat) : List Nat :=
  s.filter (fun n => n != note)

/-- Embeds `ActivatedNotes::is_empty`. -/
def ActivatedNotes.is_empty (s : List Nat) : Bool :=
  s.isEmpty

/-- Embeds `ActivatedNotes::first` (`self.data.first()`): the note activated first. -/
def ActivatedNotes.first (s : List Nat) : Option Nat :=
  s.head?

/-- Embeds `ActivatedNotes::last` (`self.data.last()`): the note activated last. -/
def ActivatedNotes.last (s : List Nat) : Option Nat :=
  s.getLast?

/-- Embeds `ActivatedNotes::lowest` (`self.data.iter().min()`). -/
def ActivatedNotes.lowest (s : List Nat) : Option Nat :=
  s.min?

/-- Embeds `ActivatedNotes::highest` (`self.data.iter().max()`). -/
def ActivatedNotes.highest (s : List Nat) : Option Nat :=
  s.max?

/-- Embeds the `NotePriority` enum (`First`, `Last`, `Low`, `High`). -/
inductive NotePriority where
  | first
  | last
  | low
  | high
deriving DecidableEq

/-- Embeds `NotePriority::provide_note`: `First` takes `notes.next()`, `Last` takes
`notes.last()`, `Low` takes `notes.min()`, `High` takes `notes.max()`, over the
iterator of activated notes. -/
def NotePriority.provide_note (np : NotePriority) (notes : List Nat) : Option Nat :=
  match np with
  | NotePriority.first => notes.head?
  | NotePriority.last => notes.getLast?
  | NotePriority.low => notes.min?
  | NotePriority.high => notes.max?

/-- Embeds `Keyboard::voltage`: `nth_key` is `u8::from(note).saturating_sub(start)`
(truncated `Nat` subtraction), and the result is `nth_key` times
`voltage_per_half_step`, namely `voltage_per_octave / 12`. -/
def Keyboard.voltage (low : Nat) (vpo : ℚ) (note : Nat) : ℚ :=
  ((note - low : Nat) : ℚ) * (vpo / 12)

/-- Embeds the software crate's `Portamento` struct. The `keyboard` field is flattened
to the two components `Keyboard::voltage` reads: the low end of the playable range and
the volts-per-octave setting. Instants and durations are microseconds. -/
structure Portamento where
  origin : ℚ
  destination : Nat
  start : Nat
  duration : Nat
  kbLow : Nat
  kbVpo : ℚ
deriving DecidableEq

/-- Embeds `Portamento::progress`: `time_gliding = now - start`; when
`time_gliding >= duration` the progress is one, else the ratio of microsecond counts. -/
def Portamento.progress (p : Portamento) (now : Nat) : ℚ :=
  let time_gliding := now - p.start
  if p.duration ≤ time_gliding then 1
  else (time_gliding : ℚ) / (p.duration : ℚ)

/-- Embeds `Portamento::glide`: linear interpolation from `origin` toward the
destination note's voltage by the current progress. -/
def Portamento.glide (p : Portamento) (now : Nat) : ℚ :=
  let destination := Keyboard.voltage p.kbLow p.kbVpo p.destination
  let total_journey := destination - p.origin
  let journey_so_far := total_journey * p.progress now
  p.origin + journey_so_far

/-- Embeds Rust's `as u16` cast from a nonnegative-or-not rational: truncation toward
zero saturated to the `u16` range (the firmware comment calls this its rounding). -/
def rustCastU16 (q : ℚ) : Nat :=
  if q ≤ 0 then 0 else min 65535 (Int.toNat ⌊q⌋)

/-- Embeds `voltage_to_dac_value` from `src/crates/firmware/src/main.rs`: divide by the
reference voltage `10.0 / 3.0`, scale by `4095.0`, and cast to `u16`. -/
def voltage_to_dac_value (voltage : ℚ) : Nat :=
  rustCastU16 (voltage / (10 / 3) * 4095)

/-- The voltage a DAC code stands for: the inverse reading of the code formula, used to
state the quantization round-trip property. -/
def dac_value_to_voltage (code : Nat) : ℚ :=
  (code : ℚ) / 4095 * (10 / 3)

/-- Modelled from the spec: the voltage-to-code formula as the spec words it, namely
`round(voltage / reference_voltage × (2^bits − 1))` clamped to the representable
12-bit range, to be compared with the source's `voltage_to_dac_value`. -/
def specDacCode (voltage : ℚ) : Nat :=
  Int.toNat (min 4095 (max 0 (round (voltage / (10 / 3) * 4095))))

/-- The note messages the deferred-MIDI signal may carry (`store_note_event` accepts
only `NoteOn` and `NoteOff`). -/
inductive MidiNoteMsg where
  | noteOn (note : Nat)
  | noteOff (note : Nat)
deriving DecidableEq

/-- Embeds `store_note_event` of `handle_deferred_midi_msg`: `NoteOn` adds to the
store (capacity `GM2_SIMUL_NOTE_NUM`), `NoteOff` removes from it. -/
def store_note_event (msg : MidiNoteMsg) (store : List Nat) : List Nat :=
  match msg with
  | MidiNoteMsg.noteOn note => ActivatedNotes.add GM2_SIMUL_NOTE_NUM store note
  | MidiNoteMsg.noteOff note => ActivatedNotes.remove store note

/-- The state of the `handle_deferred_midi_msg` loop: the committed
`midi_state.activated_notes`, the local `deferred_notes`, and the optional `expiry`. -/
structure EngineState where
  committed : List Nat
  deferred : List Nat
  expiry : Option Nat
deriving DecidableEq

/-- Embeds one receipt of the deferred-MIDI signal by `handle_deferred_midi_msg`,
carrying the payload instant `x` and the message, at arrival time `t`. With no window
open, a window opens: `deferred_notes` is seeded from the committed snapshot, the event
is applied to it, and `expiry` becomes `x`. With a window open and `t ≤ expiry`, the
event is applied to `deferred_notes` and `expiry` is untouched. With `t` past `expiry`,
the armed timer wins the select race first: the working set is committed at `expiry`,
and the event then opens a fresh window seeded from the just-committed state. The
second component logs the commits as (instant, committed set) pairs. -/
def engineMidi (s : EngineState) (t x : Nat) (msg : MidiNoteMsg) :
    EngineState × List (Nat × List Nat) :=
  match s.expiry with
  | none =>
      ({ committed := s.committed, deferred := store_note_event msg s.committed,
         expiry := some x }, [])
  | some e =>
      if t ≤ e then
        ({ s with deferred := store_note_event msg s.deferred }, [])
      else
        ({ committed := s.deferred, deferred := store_note_event msg s.deferred,
           expiry := some x }, [(e, s.deferred)])

/-- Embeds the timer branch of the select in `handle_deferred_midi_msg`: when the wake
fires at `expiry`, the committed state is replaced wholesale by `deferred_notes` in the
single `midi_state.send`, and `expiry` is cleared. -/
def engineWakeCommit (s : EngineState) : EngineState × List (Nat × List Nat) :=
  match s.expiry with
  | none => (s, [])
  | some e =>
      ({ committed := s.deferred, deferred := s.deferred, expiry := none },
       [(e, s.deferred)])

/-- Runs the engine over a time-ordered trace of deferred-MIDI receipts, accumulating
the commit log. -/
def runEngineEvents (s : EngineState) :
    List (Nat × Nat × MidiNoteMsg) → EngineState × List (Nat × List Nat)
  | [] => (s, [])
  | (t, x, msg) :: rest =>
      let r := engineMidi s t x msg
      let r2 := runEngineEvents r.1 rest
      (r2.1, r.2 ++ r2.2)

/-- Runs the engine over a trace and then lets any still-armed wake fire. -/
def runEngine (s : EngineState) (evts : List (Nat × Nat × MidiNoteMsg)) :
    EngineState × List (Nat × List Nat) :=
  let r := runEngineEvents s evts
  let r2 := engineWakeCommit r.1
  (r2.1, r.2 ++ r2.2)

/-- Modelled from the spec: the ingest task that signals `DEFERRED_MIDI_MSG` is absent
from the sources (only the signal's declaration and its consumer exist). Per the spec's
fixed-window rule, a note event arriving at `t` under policy duration `D` is sent with
the candidate expiry `t + D`. -/
def feedEvent (D t : Nat) (msg : MidiNoteMsg) : Nat × Nat × MidiNoteMsg :=
  (t, t + D, msg)

/-- Embeds the `ChordCleanup` configuration enum. -/
inductive ChordCleanup where
  | none
  | thirtySecondNote
deriving DecidableEq

/-- Embeds `CycleConfig::cycle` for `ChordCleanup`: advance to the next variant,
wrapping to the first. -/
def ChordCleanup.cycle : ChordCleanup → ChordCleanup
  | ChordCleanup.none => ChordCleanup.thirtySecondNote
  | ChordCleanup.thirtySecondNote => ChordCleanup.none

/-- Embeds `ChordCleanup::duration` in microseconds. -/
def ChordCleanup.duration : ChordCleanup → Nat
  | ChordCleanup.none => 0
  | ChordCleanup.thirtySecondNote => 62500

/-- Embeds `ChordCleanup::is_enabled`. -/
def ChordCleanup.is_enabled (c : ChordCleanup) : Bool :=
  c != ChordCleanup.none

/-- The engine together with the pieces `chord_cleanup_config` owns: the broadcast
config value and the indicator LED level. -/
structure SystemState where
  engine : EngineState
  config : ChordCleanup
  led : Bool
deriving DecidableEq

/-- External happenings relevant to chord cleanup: a deferred-MIDI receipt, or a press
of the chord-cleanup button. -/
inductive SysEvent where
  | midiMsg (t x : Nat) (msg : MidiNoteMsg)
  | buttonPress
deriving DecidableEq

/-- Embeds one iteration of the `chord_cleanup_config` task: cycle the config, publish
it, and set the LED per the new value. It touches nothing else. -/
def chord_cleanup_config_step (s : SystemState) : SystemState :=
  let new_state := s.config.cycle
  { s with
    config := new_state,
    led := match new_state with
           | ChordCleanup.none => false
           | ChordCleanup.thirtySecondNote => true }

/-- One system step: MIDI receipts drive `handle_deferred_midi_msg`; a button press
drives `chord_cleanup_config`. -/
def systemStep (s : SystemState) : SysEvent → SystemState × List (Nat × List Nat)
  | SysEvent.midiMsg t x msg =>
      let r := engineMidi s.engine t x msg
      ({ s with engine := r.1 }, r.2)
  | SysEvent.buttonPress => (chord_cleanup_config_step s, [])

/-- Runs the system over a time-ordered trace of events. -/
def runSystem (s : SystemState) : List SysEvent → SystemState × List (Nat × List Nat)
  | [] => (s, [])
  | e :: rest =>
      let r := systemStep s e
      let r2 := runSystem r.1 rest
      (r2.1, r.2 ++ r2.2)

/-- Embeds the voiced-note selection of the firmware `keyboard` task: pick by the
configured priority from the committed activated notes, retaining the previously
voiced note when the resolver yields nothing. -/
def keyboard_voiced_note (np : NotePriority) (notes : List Nat) (voiced : Nat) : Nat :=
  (match np with
   | NotePriority.first => ActivatedNotes.first notes
   | NotePriority.last => ActivatedNotes.last notes
   | NotePriority.low => ActivatedNotes.lowest notes
   | NotePriority.high => ActivatedNotes.highest notes).getD voiced

/-- Embeds Rust's plain `u8` subtraction `a - b`: the difference when it does not
underflow, and `none` otherwise — on underflow the source is a program error (a panic
in debug builds, a wrap in release builds), so the embedding produces no value there. -/
def rustSubU8 (a b : Nat) : Option Nat :=
  if b ≤ a then some (a - b) else none

/-- Embeds one iteration of the firmware `keyboard` task: the new voiced note, and the
DAC value sent, computed from the plain `u8` subtraction
`nth_key = voiced_note as u8 - *playable_notes.start() as u8` (note `F3 = 53`) with
`volts_per_octave = 1.0`. The subtraction underflows for voiced notes below F3, so the
output is `none` there. -/
def keyboard_output (np : NotePriority) (notes : List Nat) (voiced : Nat) :
    Option (Nat × Nat) :=
  let voiced_note := keyboard_voiced_note np notes voiced
  match rustSubU8 voiced_note 53 with
  | none => none
  | some nth_key => some (voiced_note, voltage_to_dac_value ((nth_key : ℚ) * 1 / 12))

/-- Embeds one iteration of the firmware `trigger` task: the gate line is driven low
exactly when the committed activated-note set is empty. -/
def trigger_output (notes : List Nat) : Bool :=
  !(ActivatedNotes.is_empty notes)

/-- C7: `ActivatedNotes::add` is idempotent and capacity-bounded: re-adding a present
note changes nothing (adding twice equals adding once), and with the vector at full
capacity an additional distinct note is silently ignored — the set keeps its members
and the newcomer is excluded, with no eviction. -/
theorem C7_add_idempotent_and_capacity_bounded :
    (∀ (cap : Nat) (s : List Nat) (n : Nat),
        ActivatedNotes.add cap (ActivatedNotes.add cap s n) n = ActivatedNotes.add cap s n) ∧
    (∀ (cap : Nat) (s : List Nat) (n : Nat), n ∈ s →
        ActivatedNotes.add cap s n = s) ∧
    (∀ (cap : Nat) (s : List Nat) (n : Nat), s.length = cap →
        ActivatedNotes.add cap s n = s) := by
  refine ⟨?_, ?_, ?_⟩
  · intro cap s n
    by_cases h : s.length ≠ cap ∧ n ∉ s
    · have h1 : ActivatedNotes.add cap s n = s ++ [n] := if_pos h
      rw [h1, ActivatedNotes.add, if_neg (by simp)]
    · have h1 : ActivatedNotes.add cap s n = s := if_neg h
      rw [h1, h1]
  · intro cap s n hn
    exact if_neg (fun hcon => hcon.2 hn)
  · intro cap s n hl
    exact if_neg (fun hcon => hcon.1 hl)

/-- Witness for C7 at concrete inputs: re-adding 60 to a set holding it, and adding a
third note to a capacity-2 set, both leave the set unchanged. -/
theorem C7_add_idempotent_and_capacity_bounded_witness :
    ActivatedNotes.add 32 [60] 60 = [60] ∧ ActivatedNotes.add 2 [60, 64] 67 = [60, 64] :=
  ⟨C7_add_idempotent_and_capacity_bounded.2.1 32 [60] 60 (by decide),
   C7_add_idempotent_and_capacity_bounded.2.2 2 [60, 64] 67 (by decide)⟩

/-- C8: `ActivatedNotes::remove` removes exactly the given note, keeps the surviving
entries in their original relative order (the result is a sublist of the input, and
removing a middle note leaves the others in place), and is a no-op when the note is
absent. -/
theorem C8_remove_exact_and_order_preserving :
    (∀ (s : List Nat) (n : Nat), n ∉ s → ActivatedNotes.remove s n = s) ∧
    (∀ (s : List Nat) (n m : Nat), m ∈ ActivatedNotes.remove s n ↔ m ∈ s ∧ m ≠ n) ∧
    (∀ (s : List Nat) (n : Nat), (ActivatedNotes.remove s n).Sublist s) ∧
    ActivatedNotes.remove [64, 60, 67] 60 = [64, 67] := by
  refine ⟨?_, ?_, ?_, by decide⟩
  · intro s n hn
    rw [ActivatedNotes.remove, List.filter_eq_self]
    intro a ha
    simp only [bne_iff_ne, ne_eq]
    exact fun heq => hn (heq ▸ ha)
  · intro s n m
    simp [ActivatedNotes.remove, List.mem_filter, bne_iff_ne]
  · intro s n
    exact List.filter_sublist s

/-- Witness for C8 at a concrete input: removing an absent note is a no-op. -/
theorem C8_remove_exact_and_order_preserving_witness :
    ActivatedNotes.remove [64, 67] 60 = [64, 67] :=
  C8_remove_exact_and_order_preserving.1 [64, 67] 60 (by decide)

/-- The Activated-Note Set of the C3 example: C4, E4, G4, B4 added in that order. -/
def c3_chord : List Nat :=
  ActivatedNotes.add 32
    (ActivatedNotes.add 32 (ActivatedNotes.add 32 (ActivatedNotes.add 32 [] 60) 64) 67) 71

/-- C3: `NotePriority::provide_note` returns `none` exactly on the empty input; `First`
yields the earliest-added note, `Last` the most recently added, `Low` a member that is
a lower bound of the set, `High` a member that is an upper bound; and on C4, E4, G4,
B4 added in that order it selects C4, B4, C4 and B4 respectively. -/
theorem C3_note_priority_resolver :
    (∀ (np : NotePriority) (notes : List Nat),
        NotePriority.provide_note np notes = none ↔ notes = []) ∧
    (∀ (a : Nat) (rest : List Nat),
        NotePriority.provide_note NotePriority.first (a :: rest) = some a) ∧
    (∀ (notes : List Nat) (a : Nat),
        NotePriority.provide_note NotePriority.last (notes ++ [a]) = some a) ∧
    (∀ (notes : List Nat) (m : Nat),
        NotePriority.provide_note NotePriority.low notes = some m →
          m ∈ notes ∧ ∀ b ∈ notes, m ≤ b) ∧
    (∀ (notes : List Nat) (m : Nat),
        NotePriority.provide_note NotePriority.high notes = some m →
          m ∈ notes ∧ ∀ b ∈ notes, b ≤ m) ∧
    (NotePriority.provide_note NotePriority.first c3_chord = some 60 ∧
     NotePriority.provide_note NotePriority.last c3_chord = some 71 ∧
     NotePriority.provide_note NotePriority.low c3_chord = some 60 ∧
     NotePriority.provide_note NotePriority.high c3_chord = some 71) := by
  refine ⟨?_, ?_, ?_, ?_, ?_, by decide⟩
  · intro np notes
    cases np <;> simp [NotePriority.provide_note]
  · intro a rest
    simp [NotePriority.provide_note]
  · intro notes a
    simp [NotePriority.provide_note]
  · intro notes m h
    exact List.min?_eq_some_iff'.mp h
  · intro notes m h
    exact List.max?_eq_some_iff'.mp h

/-- Witness for C3 at a concrete input: the lowest-priority selection on the example
chord is a member and a lower bound. -/
theorem C3_note_priority_resolver_witness :
    60 ∈ c3_chord ∧ ∀ b ∈ c3_chord, 60 ≤ b :=
  C3_note_priority_resolver.2.2.2.1 c3_chord 60 (by decide)

/-- C4: sampling `Portamento::glide` at or after `start + duration` returns exactly
the destination note's voltage, for every glide state, including `duration = 0`. -/
theorem C4_glide_clamps_at_destination (p : Portamento) (now : Nat)
    (h : p.start + p.duration ≤ now) :
    Portamento.glide p now = Keyboard.voltage p.kbLow p.kbVpo p.destination := by
  have hd : p.duration ≤ now - p.start := by omega
  rw [Portamento.glide, Portamento.progress]
  simp only [if_pos hd]
  ring

/-- Witness for C4 at a concrete input: the degenerate `duration = 0` glide sampled at
its start instant already sits on the destination voltage. -/
theorem C4_glide_clamps_at_destination_witness :
    Portamento.glide ⟨3 / 4, 74, 100, 0, 53, 1⟩ 100 = Keyboard.voltage 53 1 74 :=
  C4_glide_clamps_at_destination ⟨3 / 4, 74, 100, 0, 53, 1⟩ 100 (by decide)

/-- C6: for notes at or above the low end of the playable range, `Keyboard::voltage`
is the linear map `(note − lowest_playable_note) × volts_per_octave / 12`; and gliding
from 0.75 V toward D5 (1.75 V on the F3-based one-volt-per-octave keyboard) over
1000 ms, sampled at 500 ms, yields exactly 1.25 V. -/
theorem C6_voltage_linear_and_glide_midpoint :
    (∀ (low note : Nat) (vpo : ℚ), low ≤ note →
        Keyboard.voltage low vpo note = ((note : ℚ) - (low : ℚ)) * vpo / 12) ∧
    Portamento.glide ⟨3 / 4, 74, 0, 1000000, 53, 1⟩ 500000 = 5 / 4 := by
  constructor
  · intro low note vpo h
    rw [Keyboard.voltage, Nat.cast_sub h]
    ring
  · rw [Portamento.glide, Portamento.progress]
    norm_num [Keyboard.voltage]

/-- Witness for C6 at a concrete input: D5 on the F3-based keyboard maps to
(74 − 53) / 12 volts. -/
theorem C6_voltage_linear_and_glide_midpoint_witness :
    Keyboard.voltage 53 1 74 = ((74 : ℚ) - (53 : ℚ)) * 1 / 12 :=
  C6_voltage_linear_and_glide_midpoint.1 53 74 1 (by decide)

/-- C10: `Keyboard::voltage` is total on all notes: below the playable range the
saturating key-index subtraction yields key zero, hence exactly 0 V, and with a
nonnegative volts-per-octave setting the result is never negative. -/
theorem C10_voltage_saturates_below_range (low note : Nat) (vpo : ℚ)
    (h : note < low) (hvpo : 0 ≤ vpo) :
    Keyboard.voltage low vpo note = 0 ∧ ∀ m : Nat, 0 ≤ Keyboard.voltage low vpo m := by
  constructor
  · rw [Keyboard.voltage, Nat.sub_eq_zero_of_le (Nat.le_of_lt h)]
    simp
  · intro m
    rw [Keyboard.voltage]
    have h1 : (0 : ℚ) ≤ ((m - low : Nat) : ℚ) := Nat.cast_nonneg _
    have h2 : (0 : ℚ) ≤ vpo / 12 := by positivity
    exact mul_nonneg h1 h2

/-- Witness for C10 at a concrete input: E2 (note 40), below the F3-based playable
range, maps to exactly 0 V. -/
theorem C10_voltage_saturates_below_range_witness :
    Keyboard.voltage 53 1 40 = 0 ∧ ∀ m : Nat, 0 ≤ Keyboard.voltage 53 1 m :=
  C10_voltage_saturates_below_range 53 40 1 (by decide) (by norm_num)

/-- The engine's start state: nothing committed, no window open. -/
def c1_engine0 : EngineState := ⟨[], [], none⟩

/-- The C1 example trace under D = 62.5 ms: Note Ons at t = 0 ms, 30 ms and 70 ms. -/
def c1_events : List (Nat × Nat × MidiNoteMsg) :=
  [feedEvent 62500 0 (MidiNoteMsg.noteOn 60),
   feedEvent 62500 30000 (MidiNoteMsg.noteOn 64),
   feedEvent 62500 70000 (MidiNoteMsg.noteOn 67)]

/-- C1: while the engine is Collecting with expiry `e`, a note event at `t ≤ e` is
applied to the working set without extending `e` (and without touching the committed
state or committing anything); the wake at `e` replaces the committed state with the
whole working set in one update; and in the D = 62.5 ms example, the notes at 0 ms and
30 ms commit together exactly at 62.5 ms while the note at 70 ms opens a new window
with its own 62.5 ms expiry (132500 µs), committed at that expiry. -/
theorem C1_fixed_window_batching :
    (∀ (s : EngineState) (e t x : Nat) (msg : MidiNoteMsg),
        s.expiry = some e → t ≤ e →
          engineMidi s t x msg =
            ({ s with deferred := store_note_event msg s.deferred }, [])) ∧
    (∀ (s : EngineState) (e : Nat), s.expiry = some e →
        engineWakeCommit s =
          ({ committed := s.deferred, deferred := s.deferred, expiry := none },
           [(e, s.deferred)])) ∧
    (runEngineEvents c1_engine0 c1_events =
        (⟨[60, 64], [60, 64, 67], some 132500⟩, [(62500, [60, 64])]) ∧
     runEngine c1_engine0 c1_events =
        (⟨[60, 64, 67], [60, 64, 67], none⟩,
         [(62500, [60, 64]), (132500, [60, 64, 67])])) := by
  refine ⟨?_, ?_, by decide⟩
  · intro s e t x msg he ht
    simp only [engineMidi, he]
    rw [if_pos ht]
  · intro s e he
    simp only [engineWakeCommit, he]

/-- Witness for C1 at a concrete input: the 30 ms Note On lands in the open window
(expiry 62500 µs) and is folded into the working set with the expiry unchanged. -/
theorem C1_fixed_window_batching_witness :
    engineMidi ⟨[], [60], some 62500⟩ 30000 92500 (MidiNoteMsg.noteOn 64) =
      ({ committed := [], deferred := store_note_event (MidiNoteMsg.noteOn 64) [60],
         expiry := some 62500 }, []) :=
  C1_fixed_window_batching.1 ⟨[], [60], some 62500⟩ 62500 30000 92500
    (MidiNoteMsg.noteOn 64) rfl (by decide)

/-- The C2 scenario start: chord cleanup enabled, engine idle, nothing committed. -/
def c2_sys0 : SystemState := ⟨⟨[], [], none⟩, ChordCleanup.thirtySecondNote, true⟩

/-- The C2 scenario trace: a Note On at t = 0 opens a window (expiry 62500 µs), then
the chord-cleanup button is pressed mid-window, switching the policy to Disabled. -/
def c2_events : List SysEvent :=
  [SysEvent.midiMsg 0 62500 (MidiNoteMsg.noteOn 60), SysEvent.buttonPress]

/-- C2 counterexample: pressing the chord-cleanup button mid-window does switch the
policy to Disabled, and the working set does hold the collected note, but the
committed state is not flushed (it differs from the working set) and the timed wake is
still pending — `chord_cleanup_config` only republishes the config and drives the
LED, and `handle_deferred_midi_msg` never consults it. -/
theorem C2_disable_midwindow_counterexample :
    (runSystem c2_sys0 c2_events).1.config = ChordCleanup.none ∧
    (runSystem c2_sys0 c2_events).1.engine.deferred = [60] ∧
    ¬ ((runSystem c2_sys0 c2_events).1.engine.committed =
         (runSystem c2_sys0 c2_events).1.engine.deferred ∧
       (runSystem c2_sys0 c2_events).1.engine.expiry = none) := by
  decide

/-- C2 amended: switching the chord-cleanup policy mid-window neither flushes the
working set nor cancels the pending wake — the button task leaves the engine state
untouched and commits nothing — and the collected events are still not lost: the
still-armed wake commits the working set when it fires at the original expiry. -/
theorem C2_disable_midwindow_no_flush :
    (∀ s : SystemState,
        (systemStep s SysEvent.buttonPress).1.engine = s.engine ∧
        (systemStep s SysEvent.buttonPress).2 = []) ∧
    engineWakeCommit (runSystem c2_sys0 c2_events).1.engine =
      (⟨[60], [60], none⟩, [(62500, [60])]) := by
  exact ⟨fun s => ⟨rfl, rfl⟩, by decide⟩

/-- C9: on an empty committed note set, one iteration of the firmware keyboard task
retains the previously voiced note — the resolver's `None` is absorbed by `unwrap_or`
— and, for a retained note at or above F3 (where the key-index subtraction is
defined), emits exactly the DAC value of that retained note, so the pitch output is
unchanged; the trigger task drives the gate low on the empty set and high otherwise. -/
theorem C9_empty_set_keeps_pitch_gate_low :
    (∀ (np : NotePriority) (voiced : Nat),
        keyboard_voiced_note np [] voiced = voiced) ∧
    (∀ (np : NotePriority) (voiced : Nat), 53 ≤ voiced →
        keyboard_output np [] voiced =
          some (voiced, voltage_to_dac_value (((voiced - 53 : Nat) : ℚ) * 1 / 12))) ∧
    trigger_output [] = false ∧
    (∀ (n : Nat) (l : List Nat), trigger_output (n :: l) = true) := by
  have hv : ∀ (np : NotePriority) (voiced : Nat),
      keyboard_voiced_note np [] voiced = voiced := by
    intro np voiced
    cases np <;> rfl
  refine ⟨hv, ?_, rfl, fun n l => rfl⟩
  intro np voiced h
  rw [keyboard_output, hv, rustSubU8, if_pos h]

/-- Witness for C9 at a concrete input: with all keys released and C4 as the
previously voiced note, the task keeps voicing C4 and emits C4's DAC value. -/
theorem C9_empty_set_keeps_pitch_gate_low_witness :
    keyboard_output NotePriority.low [] 60 =
      some (60, voltage_to_dac_value (((60 - 53 : Nat) : ℚ) * 1 / 12)) :=
  C9_empty_set_keeps_pitch_gate_low.2.1 NotePriority.low 60 (by decide)

/-- C5 counterexample: at 0.7 V the source's conversion truncates
`0.7 / (10/3) × 4095 = 859.95` to code 859, while the claimed formula
`round(voltage / reference_voltage × (2^bits − 1))` gives 860. -/
theorem C5_round_vs_truncate_counterexample :
    voltage_to_dac_value (7 / 10) ≠ specDacCode (7 / 10) := by
  have hq : (7 / 10 : ℚ) / (10 / 3) * 4095 = 17199 / 20 := by norm_num
  have hfloor : ⌊(17199 / 20 : ℚ)⌋ = 859 := by
    rw [Int.floor_eq_iff]
    norm_num
  have hround : round (17199 / 20 : ℚ) = 860 := by
    rw [round_eq]
    have h12 : (17199 / 20 : ℚ) + 1 / 2 = 17209 / 20 := by norm_num
    rw [h12, Int.floor_eq_iff]
    norm_num
  have h1 : voltage_to_dac_value (7 / 10) = 859 := by
    rw [voltage_to_dac_value, hq, rustCastU16, if_neg (by norm_num), hfloor]
    rfl
  have h2 : specDacCode (7 / 10) = 860 := by
    rw [specDacCode, hq, hround]
    rfl
  rw [h1, h2]
  decide

/-- C5 as amended: the conversion truncates rather than rounds — for voltages between
0 V and the 10/3 V reference the code is exactly the floor of
`voltage / reference_voltage × 4095` (the u16 saturation never engages there) — and
the voltage → code → voltage round trip still differs from the original by less than
one code's worth of voltage. -/
theorem C5_truncating_quantization (v : ℚ) (h0 : 0 ≤ v) (h1 : v ≤ 10 / 3) :
    voltage_to_dac_value v = Int.toNat ⌊v / (10 / 3) * 4095⌋ ∧
    0 ≤ v - dac_value_to_voltage (voltage_to_dac_value v) ∧
    v - dac_value_to_voltage (voltage_to_dac_value v) < 10 / 3 / 4095 := by
  set q : ℚ := v / (10 / 3) * 4095 with hq
  have hq0 : 0 ≤ q := by
    rw [hq]
    positivity
  have hq1 : q ≤ 4095 := by
    rw [hq]
    have hd : v / (10 / 3) ≤ 1 := (div_le_one (by norm_num)).mpr h1
    nlinarith
  have hfloor0 : (0 : ℤ) ≤ ⌊q⌋ := Int.floor_nonneg.mpr hq0
  have hfloorle : ⌊q⌋ ≤ 4095 := by
    have := Int.floor_le_floor hq1
    simpa using this
  have hfirst : voltage_to_dac_value v = Int.toNat ⌊q⌋ := by
    by_cases hz : q ≤ 0
    · have hq00 : q = 0 := le_antisymm hz hq0
      rw [voltage_to_dac_value, ← hq, rustCastU16, if_pos hz, hq00]
      norm_num
    · rw [voltage_to_dac_value, ← hq, rustCastU16, if_neg hz]
      exact min_eq_right (by omega)
  have hcast : ((Int.toNat ⌊q⌋ : ℕ) : ℚ) = ((⌊q⌋ : ℤ) : ℚ) := by
    exact_mod_cast congrArg Int.cast (Int.toNat_of_nonneg hfloor0)
  have hv : v = q * (10 / 3) / 4095 := by
    rw [hq]
    ring
  have hback : v - dac_value_to_voltage (voltage_to_dac_value v) =
      Int.fract q * (10 / 3 / 4095) := by
    rw [hfirst, dac_value_to_voltage, hcast, Int.fract]
    rw [hv]
    ring
  refine ⟨hfirst, ?_, ?_⟩
  · rw [hback]
    have hf0 : 0 ≤ Int.fract q := Int.fract_nonneg q
    positivity
  · rw [hback]
    exact mul_lt_of_lt_one_left (by norm_num) (Int.fract_lt_one q)

/-- Witness for the amended C5 at a concrete input: 0.5 V is truncated to its floor
code and round-trips to within one code's voltage. -/
theorem C5_truncating_quantization_witness :
    voltage_to_dac_value (1 / 2) = Int.toNat ⌊(1 / 2 : ℚ) / (10 / 3) * 4095⌋ ∧
    0 ≤ (1 / 2 : ℚ) - dac_value_to_voltage (voltage_to_dac_value (1 / 2)) ∧
    (1 / 2 : ℚ) - dac_value_to_voltage (voltage_to_dac_value (1 / 2)) < 10 / 3 / 4095 :=
  C5_truncating_quantization (1 / 2) (by norm_num) (by norm_num)
